import Mathlib

/-!
Verification development for the `aws_uploader` program (`src/uploader.py`).

The program is a sequential batch job: it lists a backup directory, filters
file names by a suffix, and uploads each match to one of two AWS backends
(Glacier archive vault or S3 bucket), recording Glacier archive ids in a
history file and deleting local files after upload.

Shallow embedding conventions:
  - The local filesystem is a list of existing regular-file paths
    (`fs : List String`); `os.remove` is `List.erase`, `os.path.isfile`
    is list membership.
  - The remote service is an oracle: for each file the environment fixes
    whether the boto3 call succeeds (returning a response dict, modelled as
    an association list `List (String × String)`) or raises
    `botocore.exceptions.ClientError`.
  - The history file is modelled by its current content (a `String`);
    opening in append mode and writing is string concatenation.
  - Python exceptions that escape a function are explicit constructors of
    the result type (`unboundLocalError` below), and `sys.exit(n)` /
    an uncaught traceback are the `ExitStatus` type.
  - Log calls are modelled only where a claim mentions them
    (`errorLogged`, `warnings`).
-/

namespace AwsUploader

/-- A boto3-style response dict.  Only string values appear in the claims
(the Glacier `archiveId`), so a dict is an association list over strings. -/
abbrev Dict := List (String × String)

/-- Python `s.endswith(suffix)`: suffix test on the character sequence.
(`String.endsWith` itself is not kernel-reducible, so the model works on
`String.data`.) -/
def strEndsWith (s suffix : String) : Bool :=
  List.isSuffixOf suffix.data s.data

/-- Python `s.startswith(pre)`: prefix test on the character sequence. -/
def strStartsWith (s pre : String) : Bool :=
  List.isPrefixOf pre.data s.data

/-- POSIX `os.path.join(dir, name)` as used by `find_backup`: an absolute
`name` replaces `dir`; otherwise the two are joined with `/` unless `dir`
is empty or already ends with `/`. -/
def path_join (dir name : String) : String :=
  if strStartsWith name "/" then name
  else if dir = "" || strEndsWith dir "/" then dir ++ name
  else dir ++ "/" ++ name

/-- Concatenation of a list of strings with no separator. -/
def concatAll : List String → String
  | [] => ""
  | s :: rest => s ++ concatAll rest

/-- One character of `json.dump`'s serialization of a Python string
(the escapes relevant to archive-id strings). -/
def jsonEscapeChar (c : Char) : String :=
  if c = '"' then "\\\""
  else if c = '\\' then "\\\\"
  else if c = '\n' then "\\n"
  else if c = '\r' then "\\r"
  else if c = '\t' then "\\t"
  else String.singleton c

/-- `json.dump` serialization of a Python string value. -/
def jsonEncodeString (s : String) : String :=
  "\"" ++ concatAll (s.data.map jsonEscapeChar) ++ "\""

/-- `json.dump` of the value produced by `data.get('archiveId')`:
Python `None` serializes as `null`, a string serializes quoted. -/
def json_dump : Option String → String
  | none => "null"
  | some s => jsonEncodeString s

/-- `save_history(history_file_name, data)` from `src/uploader.py`:
`archive_id = data.get('archiveId')`, then the file is opened in append
mode and `json.dump(archive_id, hist_file)` is written.  The file is
modelled by its content; the result is the content after the call.
`dict.get` of a missing key is `None`, modelled by `List.lookup`
returning `none`. -/
def save_history (history_content : String) (data : Dict) : String :=
  history_content ++ json_dump (data.lookup "archiveId")

/-- The encoding `save_history` appends for one successful upload. -/
def history_entry (archive : Dict) : String :=
  json_dump (archive.lookup "archiveId")

/-- `find_backup(backup_dir, backup_ext)` from `src/uploader.py`:
iterate `os.listdir(backup_dir)` (the immediate children, given here as
`listing`), keep `file` when `not backup_ext or file.endswith(backup_ext)`,
and add `os.path.join(backup_dir, file)` to a set. -/
def find_backup (listing : List String) (backup_dir : String) (backup_ext : String) :
    Finset String :=
  ((listing.filter fun file => (backup_ext == "") || strEndsWith file backup_ext).map
    fun file => path_join backup_dir file).toFinset

/-- `remove_backup(file_name)` from `src/uploader.py`: if
`os.path.isfile(file_name)` then `os.remove(file_name)`, else log an error
and leave the filesystem unchanged. -/
def remove_backup (fs : List String) (file_name : String) : List String :=
  if file_name ∈ fs then fs.erase file_name else fs

/-- The `src_data` argument of `upload_to_glacier`: raw bytes, or a path
string to be opened for binary read. -/
inductive SrcData
  | bytes (b : List Nat)
  | path (p : String)
  deriving DecidableEq

/-- Whether the data source is a path string (`isinstance(src_data, str)`). -/
def SrcData.isPath : SrcData → Bool
  | .bytes _ => false
  | .path _ => true

/-- The value bound to `object_data` in `upload_to_glacier`: the bytes
themselves, or an open binary file handle on a path. -/
inductive ObjectData
  | bytes (b : List Nat)
  | handle (p : String)
  deriving DecidableEq

/-- `read_object_data(src_data)` from `src/uploader.py`: bytes are returned
as-is; a path is `open(src_data, 'rb')`, which raises `FileNotFoundError`
(logged, `None` returned) when no file exists at the path.  The
unsupported-type branch is unreachable for the `SrcData` values the
program constructs. -/
def read_object_data (fs : List String) (src_data : SrcData) : Option ObjectData :=
  match src_data with
  | .bytes b => some (.bytes b)
  | .path p => if p ∈ fs then some (.handle p) else none

/-- Python truthiness of `object_data` as tested by `if not object_data`:
`None` and empty bytes are falsy; a file object is always truthy. -/
def pyTruthy : Option ObjectData → Bool
  | none => false
  | some (.bytes b) => !b.isEmpty
  | some (.handle _) => true

/-- The remote Glacier service's behavior for one `upload_archive` call:
return a response dict, or raise `ClientError`. -/
inductive GlacierResp
  | ok (archive : Dict)
  | clientError
  deriving DecidableEq

/-- How one call to `upload_to_glacier` ends, as seen by its caller. -/
inductive GlacierOutcome
  | returnedNone
  | archive (a : Dict)
  | unboundLocalError
  deriving DecidableEq

/-- Observable record of one `upload_to_glacier` call: its outcome, whether
a file handle was opened and closed, whether the remote call was made, and
whether an error was logged. -/
structure GlacierCall where
  outcome : GlacierOutcome
  handleOpened : Bool
  handleClosed : Bool
  remoteCalled : Bool
  errorLogged : Bool
  deriving DecidableEq

/-- `upload_to_glacier(access, secret, vault_name, src_data)` from
`src/uploader.py`.  Control flow of the source:
`object_data = read_object_data(src_data)`; if falsy, return `None`.
Otherwise call `glacier.upload_archive(...)` inside
`try/except ClientError`; the except branch logs and falls through.
Then `if isinstance(src_data, str): object_data.close()` and
`return archive`.  In the except case `archive` was never assigned, so
`return archive` raises `UnboundLocalError` — after the handle was
closed. -/
def upload_to_glacier (fs : List String) (remote : GlacierResp) (src_data : SrcData) :
    GlacierCall :=
  let object_data := read_object_data fs src_data
  if !(pyTruthy object_data) then
    { outcome := .returnedNone, handleOpened := false, handleClosed := false,
      remoteCalled := false,
      errorLogged :=
        match src_data, object_data with
        | .path _, none => true
        | _, _ => false }
  else
    match remote with
    | .ok archive =>
        { outcome := .archive archive,
          handleOpened := src_data.isPath, handleClosed := src_data.isPath,
          remoteCalled := true, errorLogged := false }
    | .clientError =>
        { outcome := .unboundLocalError,
          handleOpened := src_data.isPath, handleClosed := src_data.isPath,
          remoteCalled := true, errorLogged := true }

/-- The remote S3 service's behavior for one `upload_file` call. -/
inductive S3Resp
  | ok
  | clientError
  deriving DecidableEq

/-- Whether the S3 call completed without a service error. -/
def S3Resp.isOk : S3Resp → Bool
  | .ok => true
  | .clientError => false

/-- Characters after the last `/`, accumulating the current component. -/
def basenameAux : List Char → List Char → List Char
  | [], acc => acc
  | c :: cs, acc => if c = '/' then basenameAux cs [] else basenameAux cs (acc ++ [c])

/-- POSIX `os.path.basename(p)`: everything after the final `/`
(the whole string when there is no `/`). -/
def basename (p : String) : String :=
  ⟨basenameAux p.data []⟩

/-- Observable record of one `upload_to_s3` call. -/
structure S3Call where
  bucket : String
  objectName : String
  errorLogged : Bool
  deriving DecidableEq

/-- `upload_to_s3(access, secret, bucket, file_name)` from
`src/uploader.py`: `object_name = os.path.basename(file_name)`, then
`s3_client.upload_file(file_name, bucket, object_name)` inside
`try/except ClientError`; the except branch logs and the function returns
`None` either way. -/
def upload_to_s3 (remote : S3Resp) (access secret bucket file_name : String) : S3Call :=
  let object_name := basename file_name
  { bucket := bucket, objectName := object_name,
    errorLogged := !remote.isOk }

/-- Result of `upload_list_to_glacier` over a list of backup files:
final filesystem and history content, the number of remote upload calls
made, the files (with their response dicts) whose upload returned a truthy
result, and whether the loop was aborted by an escaping exception. -/
structure GlacierLoopOut where
  fs : List String
  history : String
  remoteCalls : Nat
  succeeded : List (String × Dict)
  crashed : Bool
  deriving DecidableEq

/-- `upload_list_to_glacier(vault_name, access, secret, file_set,
history_file)` from `src/uploader.py`: for each file call
`upload_to_glacier`; `if archive:` (truthy, i.e. non-empty dict) then
`save_history`, log info, `remove_backup`.  An `UnboundLocalError`
escaping `upload_to_glacier` aborts the loop (nothing in the source
catches it). -/
def upload_list_to_glacier (gRemote : String → GlacierResp) :
    List String → List String → String → GlacierLoopOut
  | [], fs, history => ⟨fs, history, 0, [], false⟩
  | backup_file :: rest, fs, history =>
    match (upload_to_glacier fs (gRemote backup_file) (.path backup_file)).outcome with
    | .archive archive =>
        if archive.isEmpty then
          let out := upload_list_to_glacier gRemote rest fs history
          { out with remoteCalls := out.remoteCalls + 1 }
        else
          let out := upload_list_to_glacier gRemote rest (remove_backup fs backup_file)
                       (save_history history archive)
          { out with remoteCalls := out.remoteCalls + 1,
                     succeeded := (backup_file, archive) :: out.succeeded }
    | .returnedNone =>
        let out := upload_list_to_glacier gRemote rest fs history
        { out with remoteCalls := out.remoteCalls +
            (if (upload_to_glacier fs (gRemote backup_file) (.path backup_file)).remoteCalled
             then 1 else 0) }
    | .unboundLocalError => ⟨fs, history, 1, [], true⟩

/-- `upload_list_to_s3(bucket_name, access, secret, file_set)` from
`src/uploader.py`: for each file, `upload_to_s3` (return value ignored),
log info, `remove_backup` — unconditionally.  Returns the final filesystem
and the number of remote upload calls made. -/
def upload_list_to_s3 (sRemote : String → S3Resp) (access secret bucket_name : String) :
    List String → List String → List String × Nat
  | [], fs => (fs, 0)
  | backup_file :: rest, fs =>
    let _call := upload_to_s3 (sRemote backup_file) access secret bucket_name backup_file
    let out := upload_list_to_s3 sRemote access secret bucket_name rest
                 (remove_backup fs backup_file)
    (out.1, out.2 + 1)

/-- The `--mode` selector; `argparse` rejects anything but these two. -/
inductive Mode
  | glacier
  | s3
  deriving DecidableEq

/-- How the process ends: `sys.exit(n)` via `shutdown(n)`, or an uncaught
exception (interpreter traceback). -/
inductive ExitStatus
  | code (n : Nat)
  | uncaught
  deriving DecidableEq

/-- Observable outcome of one run of `main()`. -/
structure MainOutcome where
  exit : ExitStatus
  remoteCalls : Nat
  fs : List String
  history : String
  warnings : Nat
  succeeded : List (String × Dict)
  deriving DecidableEq

/-- `main()` from `src/uploader.py`, after `find_backup` produced the set
whose iteration order is `order` (Python set iteration is unordered; the
theorems quantify over the order).  If the set is empty: log a warning and
`shutdown(1)`.  Otherwise dispatch on the mode, then `shutdown(0)` —
unless the glacier loop was aborted by an escaping exception, in which
case `shutdown(0)` is never reached. -/
def mainRun (mode : Mode) (gRemote : String → GlacierResp) (sRemote : String → S3Resp)
    (access secret bucket_name : String)
    (order : List String) (fs0 : List String) (history0 : String) : MainOutcome :=
  if order = [] then
    { exit := .code 1, remoteCalls := 0, fs := fs0, history := history0,
      warnings := 1, succeeded := [] }
  else
    match mode with
    | .glacier =>
        let out := upload_list_to_glacier gRemote order fs0 history0
        { exit := if out.crashed then .uncaught else .code 0,
          remoteCalls := out.remoteCalls, fs := out.fs, history := out.history,
          warnings := 0, succeeded := out.succeeded }
    | .s3 =>
        let out := upload_list_to_s3 sRemote access secret bucket_name order fs0
        { exit := .code 0, remoteCalls := out.2, fs := out.1, history := history0,
          warnings := 0, succeeded := [] }

/-- Spec-worded success notion for C1: the remote upload for file `f`
"reported success" — in glacier mode a response dict that is truthy
(non-empty), in bucket mode a call that did not raise `ClientError`. -/
def uploadReportedSuccess (mode : Mode) (gRemote : String → GlacierResp)
    (sRemote : String → S3Resp) (f : String) : Prop :=
  match mode with
  | .glacier => ∃ a, gRemote f = .ok a ∧ a ≠ []
  | .s3 => (sRemote f).isOk = true

lemma upload_to_glacier_path_notMem {fs : List String} {remote : GlacierResp} {p : String}
    (h : p ∉ fs) :
    upload_to_glacier fs remote (.path p) = ⟨.returnedNone, false, false, false, true⟩ := by
  simp [upload_to_glacier, read_object_data, pyTruthy, h]

lemma upload_to_glacier_path_ok {fs : List String} {p : String} {a : Dict} (h : p ∈ fs) :
    upload_to_glacier fs (.ok a) (.path p) = ⟨.archive a, true, true, true, false⟩ := by
  simp [upload_to_glacier, read_object_data, pyTruthy, h, SrcData.isPath]

lemma upload_to_glacier_path_clientError {fs : List String} {p : String} (h : p ∈ fs) :
    upload_to_glacier fs .clientError (.path p) = ⟨.unboundLocalError, true, true, true, true⟩ := by
  simp [upload_to_glacier, read_object_data, pyTruthy, h, SrcData.isPath]

lemma remove_backup_nodup {fs : List String} (g : String) (h : fs.Nodup) :
    (remove_backup fs g).Nodup := by
  by_cases hg : g ∈ fs
  · simpa [remove_backup, hg] using h.erase g
  · simpa [remove_backup, hg] using h

lemma mem_of_mem_remove_backup {fs : List String} {g f : String}
    (h : f ∈ remove_backup fs g) : f ∈ fs := by
  by_cases hg : g ∈ fs
  · rw [remove_backup, if_pos hg] at h
    exact List.mem_of_mem_erase h
  · rwa [remove_backup, if_neg hg] at h

lemma not_mem_remove_backup_self {fs : List String} (h : fs.Nodup) (f : String) :
    f ∉ remove_backup fs f := by
  by_cases hf : f ∈ fs
  · rw [remove_backup, if_pos hf]
    exact h.not_mem_erase
  · rwa [remove_backup, if_neg hf]

lemma glacier_loop_fs_mem (gRemote : String → GlacierResp) (order : List String) :
    ∀ (fs : List String) (history : String) (f : String), fs.Nodup →
      (f ∈ (upload_list_to_glacier gRemote order fs history).fs ↔
        f ∈ fs ∧
          f ∉ (upload_list_to_glacier gRemote order fs history).succeeded.map Prod.fst) := by
  induction order with
  | nil => intro fs history f _; simp [upload_list_to_glacier]
  | cons g rest ih =>
    intro fs history f hnodup
    by_cases hg : g ∈ fs
    · cases hr : gRemote g with
      | ok a =>
        cases a with
        | nil =>
          simp only [upload_list_to_glacier, hr, upload_to_glacier_path_ok hg]
          simpa using ih fs history f hnodup
        | cons x xs =>
          simp only [upload_list_to_glacier, hr, upload_to_glacier_path_ok hg]
          have hnodup2 : (remove_backup fs g).Nodup := remove_backup_nodup g hnodup
          have hiff := ih (remove_backup fs g) (save_history history (x :: xs)) f hnodup2
          have hmem : f ∈ remove_backup fs g ↔ f ≠ g ∧ f ∈ fs := by
            rw [remove_backup, if_pos hg]
            exact hnodup.mem_erase_iff
          simp only [List.isEmpty_cons, Bool.false_eq_true, if_false, List.map_cons,
            List.mem_cons]
          rw [hiff, hmem]
          tauto
      | clientError =>
        simp only [upload_list_to_glacier, hr, upload_to_glacier_path_clientError hg]
        simp
    · simp only [upload_list_to_glacier, upload_to_glacier_path_notMem hg]
      simpa using ih fs history f hnodup

lemma glacier_loop_history (gRemote : String → GlacierResp) (order : List String) :
    ∀ (fs : List String) (history : String),
      (upload_list_to_glacier gRemote order fs history).history =
        history ++ concatAll ((upload_list_to_glacier gRemote order fs history).succeeded.map
          fun fa => history_entry fa.2) := by
  induction order with
  | nil => intro fs history; simp [upload_list_to_glacier, concatAll, String.append_empty]
  | cons g rest ih =>
    intro fs history
    by_cases hg : g ∈ fs
    · cases hr : gRemote g with
      | ok a =>
        cases a with
        | nil =>
          simp only [upload_list_to_glacier, hr, upload_to_glacier_path_ok hg]
          simpa using ih fs history
        | cons x xs =>
          simp only [upload_list_to_glacier, hr, upload_to_glacier_path_ok hg]
          simp only [List.isEmpty_cons, Bool.false_eq_true, if_false, List.map_cons]
          rw [ih]
          simp [save_history, history_entry, concatAll, String.append_assoc]
      | clientError =>
        simp only [upload_list_to_glacier, hr, upload_to_glacier_path_clientError hg]
        simp [concatAll, String.append_empty]
    · simp only [upload_list_to_glacier, upload_to_glacier_path_notMem hg]
      simpa using ih fs history

lemma s3_loop_not_mem (sRemote : String → S3Resp) (access secret bucket_name : String)
    (order : List String) :
    ∀ (fs : List String) (f : String), f ∉ fs →
      f ∉ (upload_list_to_s3 sRemote access secret bucket_name order fs).1 := by
  induction order with
  | nil => intro fs f h; simpa [upload_list_to_s3] using h
  | cons g rest ih =>
    intro fs f h
    simp only [upload_list_to_s3]
    exact ih (remove_backup fs g) f (fun hmem => h (mem_of_mem_remove_backup hmem))

lemma s3_loop_removes (sRemote : String → S3Resp) (access secret bucket_name : String)
    (order : List String) :
    ∀ (fs : List String) (f : String), fs.Nodup → f ∈ order →
      f ∉ (upload_list_to_s3 sRemote access secret bucket_name order fs).1 := by
  induction order with
  | nil => intro fs f _ h; simp at h
  | cons g rest ih =>
    intro fs f hnodup hf
    simp only [upload_list_to_s3]
    rcases List.mem_cons.mp hf with hfg | hfr
    · subst hfg
      exact s3_loop_not_mem sRemote access secret bucket_name rest (remove_backup fs f) f
        (not_mem_remove_backup_self hnodup f)
    · exact ih (remove_backup fs g) f (remove_backup_nodup g hnodup) hfr


lemma basenameAux_no_slash (l : List Char) :
    ∀ acc : List Char, (∀ c ∈ l, c ≠ '/') → basenameAux l acc = acc ++ l := by
  induction l with
  | nil => intro acc _; simp [basenameAux]
  | cons c cs ih =>
    intro acc h
    have hc : c ≠ '/' := h c (by simp)
    rw [basenameAux, if_neg hc, ih (acc ++ [c]) (fun x hx => h x (by simp [hx]))]
    simp

lemma basenameAux_slash (l1 : List Char) (l2 : List Char) :
    ∀ acc : List Char, basenameAux (l1 ++ '/' :: l2) acc = basenameAux l2 [] := by
  induction l1 with
  | nil => intro acc; simp [basenameAux]
  | cons c cs ih =>
    intro acc
    by_cases hc : c = '/' <;> simp [basenameAux, hc, ih]

/-- C1 (counterexample). The claimed invariant — a located file is deleted from local storage if and only if its remote upload reported success, in both backend modes — is false: in bucket mode, a run over one existing file whose upload raises a service error still deletes the file. -/
theorem bucket_deletes_despite_failed_upload :
    ¬ (∀ (mode : Mode) (gRemote : String → GlacierResp) (sRemote : String → S3Resp)
          (access secret bucket_name : String) (order fs0 : List String)
          (history0 f : String), fs0.Nodup → f ∈ order → f ∈ fs0 →
          (f ∉ (mainRun mode gRemote sRemote access secret bucket_name order fs0 history0).fs ↔
            uploadReportedSuccess mode gRemote sRemote f)) := by
  intro h
  have := h .s3 (fun _ => .ok []) (fun _ => .clientError) "Z123456" "A123456" "some S3 bucket"
    ["/data/backup/a.back.7z"] ["/data/backup/a.back.7z"] "" "/data/backup/a.back.7z"
    (by decide) (by decide) (by decide)
  rw [uploadReportedSuccess] at this
  revert this
  decide

/-- C1 (amended). In archive-vault (glacier) mode the invariant holds: a file present on local storage at the start of the run is absent after the run if and only if its upload call during the run returned a truthy (non-empty) response dict. In bucket mode the file is deleted after the upload attempt regardless of the remote outcome. -/
theorem glacier_delete_iff_upload_success
    (gRemote : String → GlacierResp) (sRemote : String → S3Resp)
    (access secret bucket_name : String) (order fs0 : List String) (history0 f : String)
    (hnodup : fs0.Nodup) (hf : f ∈ fs0) :
    (f ∉ (mainRun .glacier gRemote sRemote access secret bucket_name order fs0 history0).fs ↔
      f ∈ (mainRun .glacier gRemote sRemote access secret bucket_name order fs0
        history0).succeeded.map Prod.fst) := by
  by_cases hord : order = []
  · subst hord
    simp [mainRun, hf]
  · simp only [mainRun, if_neg hord]
    have hiff := glacier_loop_fs_mem gRemote order fs0 history0 f hnodup
    constructor
    · intro hdel
      by_contra hns
      exact hdel (hiff.mpr ⟨hf, hns⟩)
    · intro hs hmem
      exact (hiff.mp hmem).2 hs

theorem glacier_delete_iff_upload_success_witness :
    ("/data/backup/a.back.7z" ∉ (mainRun .glacier (fun _ => .ok [("archiveId", "XYZ")])
        (fun _ => .ok) "Z123456" "A123456" "some S3 bucket" ["/data/backup/a.back.7z"]
        ["/data/backup/a.back.7z"] "").fs ↔
      "/data/backup/a.back.7z" ∈ (mainRun .glacier (fun _ => .ok [("archiveId", "XYZ")])
        (fun _ => .ok) "Z123456" "A123456" "some S3 bucket" ["/data/backup/a.back.7z"]
        ["/data/backup/a.back.7z"] "").succeeded.map Prod.fst) :=
  glacier_delete_iff_upload_success (fun _ => .ok [("archiveId", "XYZ")]) (fun _ => .ok)
    "Z123456" "A123456" "some S3 bucket" ["/data/backup/a.back.7z"]
    ["/data/backup/a.back.7z"] "" "/data/backup/a.back.7z" (by decide) (by decide)

/-- C2 (code bug). When the remote service raises a client error during an archive-vault upload of an existing file, the error is logged, but the call does not return None: control reaches the trailing return of a variable never assigned in the except path, so an UnboundLocalError escapes to the caller — contradicting the claim and the function docstring. -/
theorem glacier_client_error_raises_unbound_local :
    upload_to_glacier ["/data/backup/a.back.7z"] .clientError (.path "/data/backup/a.back.7z") =
      { outcome := .unboundLocalError, handleOpened := true, handleClosed := true,
        remoteCalled := true, errorLogged := true } := rfl

/-- C3 (code bug). A glacier-mode run over a non-empty file set in which the upload raises a service error does not exit with status 0: the UnboundLocalError escaping the upload call aborts the loop and the process dies with an uncaught traceback. -/
theorem glacier_failure_crashes_run :
    (mainRun .glacier (fun _ => .clientError) (fun _ => .ok) "Z123456" "A123456"
        "some S3 bucket" ["/data/backup/a.back.7z"] ["/data/backup/a.back.7z"] "").exit =
      .uncaught ∧
    (mainRun .glacier (fun _ => .clientError) (fun _ => .ok) "Z123456" "A123456"
        "some S3 bucket" ["/data/backup/a.back.7z"] ["/data/backup/a.back.7z"] "").exit ≠
      .code 0 := by
  constructor
  · rfl
  · decide

/-- C4. A path is in the Backup Locator result exactly when it is the directory-joined path of a listed immediate child whose name ends with the suffix filter, or of any listed child when the filter is empty; the result is a set, hence duplicate-free, and only entries of the immediate listing are consulted. -/
theorem find_backup_mem_iff (listing : List String) (backup_dir backup_ext p : String) :
    p ∈ find_backup listing backup_dir backup_ext ↔
      ∃ file ∈ listing, (backup_ext = "" ∨ backup_ext.data <:+ file.data) ∧
        p = path_join backup_dir file := by
  simp only [find_backup, List.mem_toFinset, List.mem_map, List.mem_filter, strEndsWith,
    Bool.or_eq_true, beq_iff_eq, List.isSuffixOf_iff_suffix]
  constructor
  · rintro ⟨file, ⟨hmem, hcond⟩, heq⟩
    exact ⟨file, hmem, hcond, heq.symm⟩
  · rintro ⟨file, hmem, hcond, heq⟩
    exact ⟨file, ⟨hmem, hcond⟩, heq.symm⟩

/-- C5. When the Locator result is empty, the run logs one warning, exits with status 1, and makes no remote upload call, in either backend mode. -/
theorem empty_locator_exits_one
    (mode : Mode) (gRemote : String → GlacierResp) (sRemote : String → S3Resp)
    (access secret bucket_name : String)
    (listing : List String) (backup_dir backup_ext : String)
    (order fs0 : List String) (history0 : String)
    (horder : order.toFinset = find_backup listing backup_dir backup_ext)
    (hempty : find_backup listing backup_dir backup_ext = ∅) :
    (mainRun mode gRemote sRemote access secret bucket_name order fs0 history0).exit =
        .code 1 ∧
      (mainRun mode gRemote sRemote access secret bucket_name order fs0
        history0).remoteCalls = 0 ∧
      (mainRun mode gRemote sRemote access secret bucket_name order fs0 history0).warnings =
        1 := by
  have hord : order = [] := by
    rw [hempty] at horder
    exact (List.toFinset_eq_empty_iff order).mp horder
  subst hord
  simp [mainRun]

theorem empty_locator_exits_one_witness :
    (mainRun .s3 (fun _ => .ok []) (fun _ => .ok) "Z123456" "A123456" "some S3 bucket"
        [] ["/data/backup/keep.txt"] "").exit = .code 1 ∧
      (mainRun .s3 (fun _ => .ok []) (fun _ => .ok) "Z123456" "A123456" "some S3 bucket"
        [] ["/data/backup/keep.txt"] "").remoteCalls = 0 ∧
      (mainRun .s3 (fun _ => .ok []) (fun _ => .ok) "Z123456" "A123456" "some S3 bucket"
        [] ["/data/backup/keep.txt"] "").warnings = 1 :=
  empty_locator_exits_one .s3 (fun _ => .ok []) (fun _ => .ok) "Z123456" "A123456"
    "some S3 bucket" ["c.txt"] "/data/backup" ".back.7z" [] ["/data/backup/keep.txt"] ""
    (by decide) (by decide)

/-- C6. In bucket mode every located file that exists is deleted from local storage after its upload attempt, whatever the remote outcome for it or any other file. -/
theorem bucket_mode_deletes_unconditionally
    (gRemote : String → GlacierResp) (sRemote : String → S3Resp)
    (access secret bucket_name : String) (order fs0 : List String) (history0 f : String)
    (hnodup : fs0.Nodup) (hf : f ∈ order) :
    f ∉ (mainRun .s3 gRemote sRemote access secret bucket_name order fs0 history0).fs := by
  have hord : order ≠ [] := by
    rintro rfl
    simp at hf
  simp only [mainRun, if_neg hord]
  exact s3_loop_removes sRemote access secret bucket_name order fs0 f hnodup hf

theorem bucket_mode_deletes_unconditionally_witness :
    "/data/backup/a.back.7z" ∉ (mainRun .s3 (fun _ => .ok []) (fun _ => .clientError)
      "Z123456" "A123456" "some S3 bucket" ["/data/backup/a.back.7z"]
      ["/data/backup/a.back.7z"] "").fs :=
  bucket_mode_deletes_unconditionally (fun _ => .ok []) (fun _ => .clientError)
    "Z123456" "A123456" "some S3 bucket" ["/data/backup/a.back.7z"]
    ["/data/backup/a.back.7z"] "" "/data/backup/a.back.7z" (by decide) (by decide)

/-- C7. After a glacier-mode run, the history file content equals its prior content followed by the concatenation, in processing order and with no separator, of the json encodings of the archiveId values of the successful uploads — and nothing else. -/
theorem glacier_history_concat
    (gRemote : String → GlacierResp) (sRemote : String → S3Resp)
    (access secret bucket_name : String) (order fs0 : List String) (history0 : String) :
    (mainRun .glacier gRemote sRemote access secret bucket_name order fs0 history0).history =
      history0 ++ concatAll ((mainRun .glacier gRemote sRemote access secret bucket_name
        order fs0 history0).succeeded.map fun fa => history_entry fa.2) := by
  by_cases hord : order = []
  · subst hord
    simp [mainRun, concatAll, String.append_empty]
  · simp only [mainRun, if_neg hord]
    exact glacier_loop_history gRemote order fs0 history0

/-- C8. For an archive-vault upload whose source is a path that was successfully opened, the internally opened handle is closed on every exit path, for success and for service error alike; when the source is raw bytes no handle is opened. -/
theorem glacier_handle_closed_every_path
    (fs : List String) (remote : GlacierResp) (p : String) (b : List Nat) :
    ((upload_to_glacier fs remote (.path p)).handleOpened = true →
        (upload_to_glacier fs remote (.path p)).handleClosed = true) ∧
      (upload_to_glacier fs remote (.bytes b)).handleOpened = false := by
  constructor
  · cases remote <;> by_cases h : p ∈ fs <;>
      simp [upload_to_glacier, read_object_data, pyTruthy, h, SrcData.isPath]
  · cases remote <;> rcases b with _ | ⟨x, xs⟩ <;>
      simp [upload_to_glacier, read_object_data, pyTruthy, SrcData.isPath]

theorem glacier_handle_closed_every_path_witness :
    (upload_to_glacier ["/data/backup/a.back.7z"] .clientError
        (.path "/data/backup/a.back.7z")).handleClosed = true ∧
      (upload_to_glacier [] (.ok [("archiveId", "XYZ")]) (.bytes [1, 2])).handleOpened =
        false :=
  ⟨(glacier_handle_closed_every_path ["/data/backup/a.back.7z"] .clientError
      "/data/backup/a.back.7z" [1, 2]).1 (by decide),
   (glacier_handle_closed_every_path [] (.ok [("archiveId", "XYZ")])
      "/data/backup/a.back.7z" [1, 2]).2⟩

/-- C9. In bucket mode the remote object name used for a local file path is exactly the base name of the path: the component after the final slash, with all directory components stripped. -/
theorem s3_object_name_is_basename
    (remote : S3Resp) (access secret bucket : String) (d n : String)
    (h : ∀ c ∈ n.data, c ≠ '/') :
    (upload_to_s3 remote access secret bucket (d ++ "/" ++ n)).objectName = n := by
  show basename (d ++ "/" ++ n) = n
  rw [basename]
  have hd : (d ++ "/" ++ n).data = d.data ++ '/' :: n.data := by
    simp [String.data_append, show "/".data = ['/'] from rfl]
  rw [hd, basenameAux_slash, basenameAux_no_slash n.data [] h]
  simp

theorem s3_object_name_is_basename_witness :
    (upload_to_s3 .clientError "Z123456" "A123456" "some S3 bucket"
        ("/data/backup" ++ "/" ++ "a.back.7z")).objectName = "a.back.7z" :=
  s3_object_name_is_basename .clientError "Z123456" "A123456" "some S3 bucket"
    "/data/backup" "a.back.7z" (by decide)

/-- C10. A history-record call whose result dict lacks the archiveId key does not fail: the key is read with a defaulting access yielding None, and the encoding of None, the literal null, is appended to the history file. -/
theorem save_history_missing_key_appends_null
    (history_content : String) (data : Dict)
    (h : data.lookup "archiveId" = none) :
    save_history history_content data = history_content ++ "null" := by
  rw [save_history, h]
  rfl

theorem save_history_missing_key_appends_null_witness :
    save_history "prior" [("other", "v")] = "prior" ++ "null" :=
  save_history_missing_key_appends_null "prior" [("other", "v")] (by decide)

end AwsUploader
